import Mathlib

/-!
Verification of the message scheduling and delivery subsystem
(server/scheduler.ts, server/routes.ts schedule handler, server/storage.ts).

The embedding models:
* timestamps as `Int` milliseconds since the Unix epoch (UTC; the host is
  assumed to run with a zero timezone offset, so ECMA-262 local-time
  accessors such as getHours coincide with the UTC ones);
* the proleptic Gregorian calendar operations behind the JavaScript `Date`
  methods used by the scheduler (`getHours`, `getMinutes`, `setHours`,
  `setDate`, `setMonth`), following the ECMA-262 abstract operations
  Day, TimeWithinDay, HourFromTime, MinFromTime, YearFromTime,
  MonthFromTime, DateFromTime and MakeDay;
* the scheduler state: the persisted store (a list of rows, with the
  serial id generator), the in-memory `scheduledJobsMap` of node-schedule
  jobs, and the outstanding near-immediate `setTimeout` callbacks;
* each exported scheduler operation and the two timer callbacks as pure
  state transformers; the transport send outcome is an explicit parameter
  and the storage layer is modelled as reliable.
-/

namespace Sched

/-! ### Clock arithmetic (ECMA-262 Day / TimeWithinDay / HourFromTime / MinFromTime) -/

def msPerDay : Int := 86400000

def msPerHour : Int := 3600000

def msPerMinute : Int := 60000

/-- ECMA-262 Day(t): the day number containing instant `t` (floor division;
Lean's `Int` division by a positive divisor is floor division). -/
def dayNumber (t : Int) : Int := t / msPerDay

/-- ECMA-262 TimeWithinDay(t). -/
def timeWithinDay (t : Int) : Int := t % msPerDay

/-- ECMA-262 HourFromTime(t), i.e. `date.getHours()` at zero UTC offset. -/
def hourFromTime (t : Int) : Int := t / msPerHour % 24

/-- ECMA-262 MinFromTime(t), i.e. `date.getMinutes()` at zero UTC offset. -/
def minFromTime (t : Int) : Int := t / msPerMinute % 60

/-! ### Proleptic Gregorian calendar

Day numbers are converted to and from civil dates with the standard
400-year era decomposition (an era is 146097 days).  `daysFromCivil`
maps a civil date (with 1-based month) to its day number; it also accepts
out-of-range day-of-month values, which is exactly how ECMA-262 MakeDay
normalises dates such as January 31 plus one month. -/

/-- Days from the era origin (March 1, year 0) to March 1 of year `y2`,
counting the leap days with period 4 and 100 inside the 400-year era. -/
def eraDays (y2 : Int) : Int :=
  146097 * (y2 / 400) + 365 * (y2 - 400 * (y2 / 400)) +
    (y2 - 400 * (y2 / 400)) / 4 - (y2 - 400 * (y2 / 400)) / 100

/-- Day number of the civil date `(y, m, d)` (month 1-based; `d` may lie
outside the month, extending linearly, as in ECMA-262 MakeDay). -/
def daysFromCivil (y m d : Int) : Int :=
  eraDays (if m ≤ 2 then y - 1 else y) +
    (153 * (if m ≤ 2 then m + 9 else m - 3) + 2) / 5 + d - 1 - 719468

/-- Year of era (0..399) for a day-of-era `doe` (0..146096): the largest
year whose first day is at or before `doe`.  Computed as the floor
approximation `doe / 365` corrected downwards once if it overshoots and
capped at 399 (the approximation reaches 400 only on the era's final
leap day). -/
def yearOfEraRaw (doe : Int) : Int :=
  if 365 * (doe / 365) + doe / 365 / 4 - doe / 365 / 100 ≤ doe then doe / 365
  else doe / 365 - 1

def yearOfEra (doe : Int) : Int :=
  if 400 ≤ yearOfEraRaw doe then 399 else yearOfEraRaw doe

/-- Day of era of the day number `z` (position within the 400-year era). -/
def doeOfDay (z : Int) : Int := (z + 719468) % 146097

/-- Era index of the day number `z`. -/
def eraOfDay (z : Int) : Int := (z + 719468) / 146097

def yoeOfDay (z : Int) : Int := yearOfEra (doeOfDay z)

/-- Day of year (0-based, counted from March 1) of the day number `z`. -/
def doyOfDay (z : Int) : Int :=
  doeOfDay z - (365 * yoeOfDay z + yoeOfDay z / 4 - yoeOfDay z / 100)

/-- Shifted month index (0 = March .. 11 = February) of the day number. -/
def mpOfDay (z : Int) : Int := (5 * doyOfDay z + 2) / 153

/-- Civil month (1-based; ECMA-262 MonthFromTime is this minus one). -/
def monthFromDay (z : Int) : Int :=
  if mpOfDay z < 10 then mpOfDay z + 3 else mpOfDay z - 9

/-- ECMA-262 DateFromTime: the 1-based day of month of the day number. -/
def dateFromDay (z : Int) : Int := doyOfDay z - (153 * mpOfDay z + 2) / 5 + 1

/-- ECMA-262 YearFromTime of the day number. -/
def yearFromDay (z : Int) : Int :=
  if monthFromDay z ≤ 2 then yoeOfDay z + 400 * eraOfDay z + 1
  else yoeOfDay z + 400 * eraOfDay z

/-- ECMA-262 MakeDay(y, m0, d): `m0` is the 0-based month, arbitrary (it
carries into the year), and `d` the day of month, arbitrary (it extends
linearly past the month boundary). -/
def makeDay (y m0 d : Int) : Int :=
  daysFromCivil ((12 * y + m0) / 12) ((12 * y + m0) % 12 + 1) 1 + (d - 1)

/-- Model of `date.setMonth(date.getMonth() + 1)` on the instant `t`:
per MakeDay the new 0-based month index is `getMonth() + 1`, which equals
the 1-based `monthFromDay`; the time within the day is preserved. -/
def addCalendarMonth (t : Int) : Int :=
  makeDay (yearFromDay (dayNumber t)) (monthFromDay (dayNumber t))
      (dateFromDay (dayNumber t)) * msPerDay + timeWithinDay t

/-- Model of building a Date from the day of `t` with
`setHours(h, mi, 0, 0)`: the date of `t` at hour `h`, minute `mi`,
seconds and milliseconds zero. -/
def setTimeOfDay (t h mi : Int) : Int :=
  dayNumber t * msPerDay + h * msPerHour + mi * msPerMinute

/-! ### Data model (shared/schema.ts, scheduled_messages table) -/

/-- Values the scheduler writes into the `status` column. -/
inductive MsgStatus where
  | pending
  | sent
  | failed
  | canceled
  | expired
deriving DecidableEq, Repr

/-- Row of the `scheduled_messages` table.  The `recurring` column is a
text column, kept as `String` because the scheduler compares it against
string literals and the route handler may store values outside the
`none/daily/weekly/monthly` enumeration. -/
structure ScheduledMessage where
  id : Nat
  contactId : Int
  content : String
  mediaUrls : List String
  scheduledTime : Int
  recurring : String
  status : MsgStatus
  createdAt : Int
deriving DecidableEq, Repr

/-- Payload of an insert or update request (ScheduledMessageInsert). -/
structure ScheduledMessageInsert where
  contactId : Int
  content : String
  mediaUrls : List String
  scheduledTime : Int
  recurring : String
deriving DecidableEq, Repr

/-- Whole scheduler state: the persisted store with its serial id counter,
the in-memory scheduledJobsMap (association list keyed by message id),
and the outstanding near-immediate setTimeout callbacks. -/
structure SchedState where
  store : List ScheduledMessage
  jobs : List (Nat × ScheduledMessage)
  immediates : List ScheduledMessage
  nextId : Nat
deriving DecidableEq, Repr

/-! ### The scheduledJobsMap (a JavaScript Map keyed by id) -/

def mapHas (m : List (Nat × ScheduledMessage)) (k : Nat) : Bool :=
  m.any (fun p => p.1 == k)

/-- Map.set: replace the entry for `k` when present, append otherwise. -/
def mapSet (m : List (Nat × ScheduledMessage)) (k : Nat)
    (v : ScheduledMessage) : List (Nat × ScheduledMessage) :=
  if mapHas m k then m.map (fun p => if p.1 == k then (k, v) else p)
  else m ++ [(k, v)]

/-- Map.delete: drop every entry with key `k`. -/
def mapDelete (m : List (Nat × ScheduledMessage)) (k : Nat) :
    List (Nat × ScheduledMessage) :=
  m.filter (fun p => p.1 != k)

/-! ### Storage operations (server/storage.ts, modelled as reliable) -/

/-- storage.getScheduledMessageById: first row with the given id. -/
def findMessage (st : SchedState) (id : Nat) : Option ScheduledMessage :=
  st.store.find? (fun r => r.id == id)

def statusOf (st : SchedState) (id : Nat) : Option MsgStatus :=
  (findMessage st id).map (fun r => r.status)

/-- storage.updateScheduledMessage limited to the status column. -/
def updateStatus (st : SchedState) (id : Nat) (s : MsgStatus) : SchedState :=
  { st with
    store := st.store.map (fun r => if r.id = id then { r with status := s } else r) }

/-- Row produced when an insert payload overwrites an existing row with
the status reset to pending (the scheduler's update path). -/
def applyInsertPending (r : ScheduledMessage) (d : ScheduledMessageInsert) :
    ScheduledMessage :=
  { r with
    contactId := d.contactId
    content := d.content
    mediaUrls := d.mediaUrls
    scheduledTime := d.scheduledTime
    recurring := d.recurring
    status := MsgStatus.pending }

/-- storage.insertScheduledMessage: the serial primary key assigns the
next id, createdAt defaults to the insertion instant. -/
def insertMessage (st : SchedState) (d : ScheduledMessageInsert)
    (s : MsgStatus) (now : Int) : ScheduledMessage × SchedState :=
  let r : ScheduledMessage :=
    { id := st.nextId
      contactId := d.contactId
      content := d.content
      mediaUrls := d.mediaUrls
      scheduledTime := d.scheduledTime
      recurring := d.recurring
      status := s
      createdAt := now }
  (r, { st with store := st.store ++ [r], nextId := st.nextId + 1 })

/-! ### Arming (scheduler.ts, scheduleMessageJob) -/

/-- Condition `isInPast || isVeryNear` of scheduleMessageJob: the
scheduled time is before now, or less than 5000 ms after now. -/
def isDueNow (sched now : Int) : Bool :=
  decide (sched < now) || decide (sched - now < 5000)

/-- scheduleMessageJob: a due-now message gets a near-immediate setTimeout
(and, notably, no scheduledJobsMap entry); a future message gets a
node-schedule job stored in the scheduledJobsMap under its id. -/
def scheduleMessageJob (st : SchedState) (msg : ScheduledMessage)
    (now : Int) : SchedState :=
  if isDueNow msg.scheduledTime now then
    { st with immediates := st.immediates ++ [msg] }
  else
    { st with jobs := mapSet st.jobs msg.id msg }

/-! ### Recurrence (scheduler.ts, scheduleRecurringMessage) -/

/-- Successor time computed by scheduleRecurringMessage.  When the current
scheduledTime is already in the past the code re-anchors to the current
date at the original hour and minute (seconds and milliseconds zeroed),
adding one day if that is still in the past, and never consults the
period.  Only when the current scheduledTime is not in the past does it
add the period: setDate(getDate() + 1) and setDate(getDate() + 7) are
exactly one and seven days by MakeDay linearity, and the monthly case is
setMonth(getMonth() + 1).  An unrecognised recurrence value reaches the
default switch case and produces no successor. -/
def nextRecurringTime (sched now : Int) (rec : String) : Option Int :=
  if sched < now then
    some
      (let t1 := setTimeOfDay now (hourFromTime sched) (minFromTime sched)
       if t1 < now then t1 + msPerDay else t1)
  else
    match rec with
    | "daily" => some (sched + msPerDay)
    | "weekly" => some (sched + 7 * msPerDay)
    | "monthly" => some (addCalendarMonth sched)
    | _ => none

/-- scheduleRecurringMessage: insert a fresh pending row carrying the same
contact, content, media and recurrence at the successor time, then arm it
exactly as the create path does. -/
def scheduleRecurringMessage (st : SchedState) (msg : ScheduledMessage)
    (now : Int) : SchedState :=
  match nextRecurringTime msg.scheduledTime now msg.recurring with
  | none => st
  | some nt =>
    let ins : ScheduledMessageInsert :=
      { contactId := msg.contactId
        content := msg.content
        mediaUrls := msg.mediaUrls
        scheduledTime := nt
        recurring := msg.recurring }
    let p := insertMessage st ins MsgStatus.pending now
    scheduleMessageJob p.2 p.1 now

/-! ### Execution callbacks -/

/-- Result of the awaited sendMessage call inside a callback. -/
inductive SendOutcome where
  | delivered
  | failedSend (e : String)
deriving DecidableEq, Repr

/-- Guard `message.recurring && message.recurring !== 'none'`: a string is
truthy in JavaScript when non-empty. -/
def recurringRequested (r : String) : Bool :=
  r != "" && r != "none"

/-- Body of the node-schedule callback up to the end of its try block:
mark sent, run the recurrence step when requested, then delete the
scheduledJobsMap entry. -/
def timerSuccessBody (st : SchedState) (msg : ScheduledMessage)
    (now : Int) : SchedState :=
  let st1 := updateStatus st msg.id MsgStatus.sent
  let st2 :=
    if recurringRequested msg.recurring then scheduleRecurringMessage st1 msg now
    else st1
  { st2 with jobs := mapDelete st2.jobs msg.id }

/-- Try block of the node-schedule callback: a transport failure throws. -/
def timerTryBody (st : SchedState) (msg : ScheduledMessage) (now : Int) :
    SendOutcome → Except String SchedState
  | SendOutcome.delivered => Except.ok (timerSuccessBody st msg now)
  | SendOutcome.failedSend e => Except.error e

/-- The full node-schedule callback: the catch block converts any thrown
error into a status update to failed — and performs no scheduledJobsMap
cleanup. -/
def fireTimerJob (st : SchedState) (msg : ScheduledMessage)
    (outcome : SendOutcome) (now : Int) : SchedState :=
  match timerTryBody st msg now outcome with
  | Except.ok st2 => st2
  | Except.error _ => updateStatus st msg.id MsgStatus.failed

/-- Body of the near-immediate setTimeout callback up to the end of its
try block: identical to the timer path except that no scheduledJobsMap
entry exists, hence none is deleted. -/
def immediateSuccessBody (st : SchedState) (msg : ScheduledMessage)
    (now : Int) : SchedState :=
  let st1 := updateStatus st msg.id MsgStatus.sent
  if recurringRequested msg.recurring then scheduleRecurringMessage st1 msg now
  else st1

def immediateTryBody (st : SchedState) (msg : ScheduledMessage) (now : Int) :
    SendOutcome → Except String SchedState
  | SendOutcome.delivered => Except.ok (immediateSuccessBody st msg now)
  | SendOutcome.failedSend e => Except.error e

/-- The full setTimeout callback: running it consumes the outstanding
callback entry; the catch block converts a thrown error into a status
update to failed. -/
def fireImmediate (st : SchedState) (msg : ScheduledMessage)
    (outcome : SendOutcome) (now : Int) : SchedState :=
  let st0 := { st with immediates := st.immediates.erase msg }
  match immediateTryBody st0 msg now outcome with
  | Except.ok st2 => st2
  | Except.error _ => updateStatus st0 msg.id MsgStatus.failed

/-! ### scheduleMessage (create path) -/

/-- Recipient-existence check of scheduleMessage: ids at or above 1000 are
group indices (offset by 1000) checked against the group list length,
others are checked against the contact list length by position.  A
missing recipient throws. -/
def contactCheck (numContacts numGroups : Int) (cid : Int) :
    Except String Unit :=
  if 1000 ≤ cid then
    if 0 ≤ cid - 1000 ∧ cid - 1000 < numGroups then Except.ok ()
    else Except.error "contato ou grupo nao encontrado"
  else
    if cid < numContacts then Except.ok ()
    else Except.error "contato ou grupo nao encontrado"

/-- Persist a pending row and arm it (the insert plus scheduleMessageJob
calls shared by both branches of the contact check). -/
def insertAndArm (st : SchedState) (d : ScheduledMessageInsert)
    (now : Int) : ScheduledMessage × SchedState :=
  let p := insertMessage st d MsgStatus.pending now
  (p.1, scheduleMessageJob p.2 p.1 now)

/-- scheduleMessage: the recipient-existence check runs inside a try block
whose catch only logs and continues, so both outcomes proceed to the
insert and the arming. -/
def scheduleMessage (st : SchedState) (d : ScheduledMessageInsert)
    (numContacts numGroups : Int) (now : Int) :
    ScheduledMessage × SchedState :=
  match contactCheck numContacts numGroups d.contactId with
  | Except.ok _ => insertAndArm st d now
  | Except.error _ => insertAndArm st d now

/-! ### updateScheduledMessage and cancelScheduledMessage -/

/-- updateScheduledMessage: not-found when the id is absent; otherwise the
row is overwritten with the payload and status pending (no check of the
current status), the existing scheduledJobsMap entry is cancelled and
removed if present, and the updated row is re-armed. -/
def updateScheduledMessage (st : SchedState) (id : Nat)
    (d : ScheduledMessageInsert) (now : Int) :
    Option ScheduledMessage × SchedState :=
  match findMessage st id with
  | none => (none, st)
  | some r =>
    let updated := applyInsertPending r d
    let st1 :=
      { st with
        store := st.store.map
          (fun q : ScheduledMessage => if q.id = id then applyInsertPending q d else q) }
    let st2 := { st1 with jobs := mapDelete st1.jobs id }
    (some updated, scheduleMessageJob st2 updated now)

/-- cancelScheduledMessage: not-found when the id is absent; otherwise the
status column is set to canceled (whatever the current status), and the
scheduledJobsMap entry is cancelled and removed if present. -/
def cancelScheduledMessage (st : SchedState) (id : Nat) :
    Option ScheduledMessage × SchedState :=
  match findMessage st id with
  | none => (none, st)
  | some r =>
    let st1 := updateStatus st id MsgStatus.canceled
    let st2 := { st1 with jobs := mapDelete st1.jobs id }
    (some { r with status := MsgStatus.canceled }, st2)

/-! ### Startup recovery (initializeScheduler) -/

/-- Rows the startup query selects: status equal to pending. -/
def pendingMessages (st : SchedState) : List ScheduledMessage :=
  st.store.filter (fun r => decide (r.status = MsgStatus.pending))

/-- initializeScheduler: arm every persisted pending row once, through the
same scheduleMessageJob used by the create path. -/
def initializeScheduler (st : SchedState) (now : Int) : SchedState :=
  (pendingMessages st).foldl (fun s m => scheduleMessageJob s m now) st

/-! ### Route handler (routes.ts, POST /api/messages/schedule) -/

/-- Request body of the schedule endpoint; absent fields are `none`. -/
structure ScheduleRequest where
  contactId : Option Int
  content : Option String
  scheduledTime : Option Int
  mediaUrls : Option (List String)
  recurring : Option String
deriving DecidableEq, Repr

/-- JavaScript truthiness of a possibly-absent number (0 is falsy). -/
def truthyInt : Option Int → Bool
  | none => false
  | some n => decide (n ≠ 0)

/-- JavaScript truthiness of a possibly-absent string (empty is falsy). -/
def truthyStr : Option String → Bool
  | none => false
  | some s => s != ""

/-- Normalisation step of the handler: a truthy recurring value outside
the enumeration is replaced by none; an absent or empty value is left
untouched. -/
def normalizeRecurring : Option String → Option String
  | none => none
  | some r =>
    if r != "" && !(["none", "daily", "weekly", "monthly"].contains r) then
      some "none"
    else some r

/-- Handler of POST /api/messages/schedule: reject a falsy contactId or
content with status 400 before anything is persisted; default a missing
scheduledTime to now and a missing mediaUrls to the empty list; normalise
the recurring field; set status pending and delegate to scheduleMessage.
An absent recurring field is stored as none by the column default. -/
def handleScheduleRoute (st : SchedState) (req : ScheduleRequest)
    (numContacts numGroups : Int) (now : Int) :
    Except String (ScheduledMessage × SchedState) :=
  if !truthyInt req.contactId then Except.error "ID do contato e obrigatorio"
  else if !truthyStr req.content then
    Except.error "Conteudo da mensagem e obrigatorio"
  else
    let d : ScheduledMessageInsert :=
      { contactId := req.contactId.getD 0
        content := req.content.getD ""
        mediaUrls := req.mediaUrls.getD []
        scheduledTime := req.scheduledTime.getD now
        recurring := (normalizeRecurring req.recurring).getD "none" }
    Except.ok (scheduleMessage st d numContacts numGroups now)

/-! ## Calendar lemmas -/

/-- Defining property of the year-of-era extraction: within a 400-year
era, the chosen year starts at or before the given day, the remaining day
of year is at most 365, and the strict upper bound holds except on the
era's final year. -/
theorem yearOfEra_spec (doe : Int) (h0 : 0 ≤ doe) (h1 : doe ≤ 146096) :
    365 * yearOfEra doe + yearOfEra doe / 4 - yearOfEra doe / 100 ≤ doe ∧
    (yearOfEra doe = 399 ∨
      doe < 365 * (yearOfEra doe + 1) + (yearOfEra doe + 1) / 4 -
        (yearOfEra doe + 1) / 100) ∧
    0 ≤ yearOfEra doe ∧ yearOfEra doe ≤ 399 := by
  unfold yearOfEra yearOfEraRaw
  by_cases hc : 365 * (doe / 365) + doe / 365 / 4 - doe / 365 / 100 ≤ doe
  · simp only [if_pos hc]
    by_cases hd : (400 : Int) ≤ doe / 365
    · simp only [if_pos hd]
      exact ⟨by omega, Or.inl trivial, by omega, by omega⟩
    · simp only [if_neg hd]; omega
  · simp only [if_neg hc]
    by_cases hd : (400 : Int) ≤ doe / 365 - 1
    · simp only [if_pos hd]
      exact ⟨by omega, Or.inl trivial, by omega, by omega⟩
    · simp only [if_neg hd]
      rw [show doe / 365 - 1 + 1 = doe / 365 by ring]
      omega

theorem doeOfDay_bounds (z : Int) : 0 ≤ doeOfDay z ∧ doeOfDay z ≤ 146096 := by
  unfold doeOfDay; omega

theorem doyOfDay_bounds (z : Int) : 0 ≤ doyOfDay z ∧ doyOfDay z ≤ 365 := by
  have hdoe := doeOfDay_bounds z
  have h := yearOfEra_spec (doeOfDay z) hdoe.1 hdoe.2
  unfold doyOfDay yoeOfDay
  omega

theorem mpOfDay_spec (z : Int) :
    (153 * mpOfDay z + 2) / 5 ≤ doyOfDay z ∧
    doyOfDay z < (153 * (mpOfDay z + 1) + 2) / 5 ∧
    0 ≤ mpOfDay z ∧ mpOfDay z ≤ 11 := by
  have h := doyOfDay_bounds z
  unfold mpOfDay
  omega

theorem monthFromDay_range (z : Int) :
    1 ≤ monthFromDay z ∧ monthFromDay z ≤ 12 := by
  have h := mpOfDay_spec z
  unfold monthFromDay
  by_cases h10 : mpOfDay z < 10
  · simp only [if_pos h10]; omega
  · simp only [if_neg h10]; omega

theorem daysFromCivil_linear (y m d : Int) :
    daysFromCivil y m d = daysFromCivil y m 1 + (d - 1) := by
  unfold daysFromCivil; ring

/-- Round trip: the civil components extracted from a day number map back
to that day number, so the extraction is the (unique) inverse of
`daysFromCivil` on valid civil dates. -/
theorem daysFromCivil_inv (z : Int) :
    daysFromCivil (yearFromDay z) (monthFromDay z) (dateFromDay z) = z := by
  have hdoe := doeOfDay_bounds z
  have hy := yearOfEra_spec (doeOfDay z) hdoe.1 hdoe.2
  have hdoy := doyOfDay_bounds z
  have hmp := mpOfDay_spec z
  have hz : z + 719468 = eraOfDay z * 146097 + doeOfDay z := by
    unfold eraOfDay doeOfDay; omega
  have hyoe : yoeOfDay z = yearOfEra (doeOfDay z) := rfl
  rw [← hyoe] at hy
  have hdoyeq : doyOfDay z =
      doeOfDay z - (365 * yoeOfDay z + yoeOfDay z / 4 - yoeOfDay z / 100) := rfl
  have hdate : dateFromDay z = doyOfDay z - (153 * mpOfDay z + 2) / 5 + 1 := rfl
  have hl : (yoeOfDay z + 400 * eraOfDay z) / 400 = eraOfDay z := by omega
  have hsub : yoeOfDay z + 400 * eraOfDay z - 400 * eraOfDay z = yoeOfDay z := by
    ring
  by_cases h10 : mpOfDay z < 10
  · have hm : monthFromDay z = mpOfDay z + 3 := by
      unfold monthFromDay; rw [if_pos h10]
    have hm2 : ¬ monthFromDay z ≤ 2 := by omega
    have hyr : yearFromDay z = yoeOfDay z + 400 * eraOfDay z := by
      unfold yearFromDay; rw [if_neg hm2]
    unfold daysFromCivil eraDays
    simp only [if_neg hm2]
    rw [hyr, hm]
    rw [show mpOfDay z + 3 - 3 = mpOfDay z by ring]
    rw [hl, hsub]
    omega
  · have hm : monthFromDay z = mpOfDay z - 9 := by
      unfold monthFromDay; rw [if_neg h10]
    have hm2 : monthFromDay z ≤ 2 := by omega
    have hyr : yearFromDay z = yoeOfDay z + 400 * eraOfDay z + 1 := by
      unfold yearFromDay; rw [if_pos hm2]
    unfold daysFromCivil eraDays
    simp only [if_pos hm2]
    rw [hyr, hm]
    rw [show mpOfDay z - 9 + 9 = mpOfDay z by ring]
    rw [show yoeOfDay z + 400 * eraOfDay z + 1 - 1 = yoeOfDay z + 400 * eraOfDay z by ring]
    rw [hl, hsub]
    omega

/-- Advancing to the first day of the following month strictly increases
the day number (by the length of the month, at least 28 days). -/
theorem daysFromCivil_next_month (y m : Int) (h1 : 1 ≤ m) (h2 : m ≤ 12) :
    daysFromCivil y m 1 <
      daysFromCivil ((12 * y + m) / 12) ((12 * y + m) % 12 + 1) 1 := by
  by_cases hm11 : m ≤ 11
  · have e1 : (12 * y + m) / 12 = y := by omega
    have e2 : (12 * y + m) % 12 + 1 = m + 1 := by omega
    rw [e1, e2]
    unfold daysFromCivil eraDays
    by_cases hm2 : m ≤ 2
    · by_cases hm1 : m + 1 ≤ 2
      · simp only [if_pos hm2, if_pos hm1]
        omega
      · simp only [if_pos hm2, if_neg hm1]
        omega
    · have hm2b : ¬ m + 1 ≤ 2 := by omega
      simp only [if_neg hm2, if_neg hm2b]
      omega
  · have hm12 : m = 12 := by omega
    subst hm12
    have e1 : (12 * y + 12) / 12 = y + 1 := by omega
    have e2 : (12 * y + 12) % 12 + 1 = 1 := by omega
    rw [e1, e2]
    unfold daysFromCivil eraDays
    have c1 : ¬ (12 : Int) ≤ 2 := by norm_num
    have c2 : (1 : Int) ≤ 2 := by norm_num
    simp only [if_neg c1, if_pos c2]
    rw [show y + 1 - 1 = y by ring]
    omega

theorem dayNumber_lt_makeDay_next (z : Int) :
    z < makeDay (yearFromDay z) (monthFromDay z) (dateFromDay z) := by
  have hinv := daysFromCivil_inv z
  have hrange := monthFromDay_range z
  have hstep := daysFromCivil_next_month (yearFromDay z) (monthFromDay z)
    hrange.1 hrange.2
  have hlin := daysFromCivil_linear (yearFromDay z) (monthFromDay z) (dateFromDay z)
  have hmk : makeDay (yearFromDay z) (monthFromDay z) (dateFromDay z) =
      daysFromCivil ((12 * yearFromDay z + monthFromDay z) / 12)
        ((12 * yearFromDay z + monthFromDay z) % 12 + 1) 1 +
        (dateFromDay z - 1) := rfl
  omega

/-- Adding a calendar month always moves strictly forward in time. -/
theorem lt_addCalendarMonth (t : Int) : t < addCalendarMonth t := by
  have h := dayNumber_lt_makeDay_next (dayNumber t)
  unfold addCalendarMonth timeWithinDay
  unfold dayNumber msPerDay at h ⊢
  omega

theorem hourFromTime_addCalendarMonth (t : Int) :
    hourFromTime (addCalendarMonth t) = hourFromTime t := by
  unfold addCalendarMonth hourFromTime timeWithinDay msPerDay msPerHour
  omega

theorem minFromTime_addCalendarMonth (t : Int) :
    minFromTime (addCalendarMonth t) = minFromTime t := by
  unfold addCalendarMonth minFromTime timeWithinDay msPerDay msPerMinute
  omega

theorem hourFromTime_add_day (t : Int) :
    hourFromTime (t + msPerDay) = hourFromTime t := by
  unfold hourFromTime msPerDay msPerHour; omega

theorem minFromTime_add_day (t : Int) :
    minFromTime (t + msPerDay) = minFromTime t := by
  unfold minFromTime msPerDay msPerMinute; omega

theorem hourFromTime_add_week (t : Int) :
    hourFromTime (t + 7 * msPerDay) = hourFromTime t := by
  unfold hourFromTime msPerDay msPerHour; omega

theorem minFromTime_add_week (t : Int) :
    minFromTime (t + 7 * msPerDay) = minFromTime t := by
  unfold minFromTime msPerDay msPerMinute; omega

theorem hourFromTime_bounds (t : Int) :
    0 ≤ hourFromTime t ∧ hourFromTime t < 24 := by
  unfold hourFromTime msPerHour; omega

theorem minFromTime_bounds (t : Int) :
    0 ≤ minFromTime t ∧ minFromTime t < 60 := by
  unfold minFromTime msPerMinute; omega

theorem hourFromTime_setTimeOfDay (t h mi : Int) (h0 : 0 ≤ h) (h1 : h < 24)
    (m0 : 0 ≤ mi) (m1 : mi < 60) :
    hourFromTime (setTimeOfDay t h mi) = h ∧
    minFromTime (setTimeOfDay t h mi) = mi := by
  unfold hourFromTime minFromTime setTimeOfDay dayNumber msPerDay msPerHour msPerMinute
  omega

theorem setTimeOfDay_lower (t h mi : Int) (h0 : 0 ≤ h) (m0 : 0 ≤ mi) :
    dayNumber t * msPerDay ≤ setTimeOfDay t h mi := by
  unfold setTimeOfDay dayNumber msPerDay msPerHour msPerMinute
  omega

theorem lt_dayNumber_succ (t : Int) : t < (dayNumber t + 1) * msPerDay := by
  unfold dayNumber msPerDay; omega

/-! ## Map and store lemmas -/

theorem setStatus_id (r : ScheduledMessage) (s : MsgStatus) :
    ({ r with status := s } : ScheduledMessage).id = r.id := rfl

theorem find?_map_of_id_pres (l : List ScheduledMessage) (id : Nat)
    (f : ScheduledMessage → ScheduledMessage) (hf : ∀ r, (f r).id = r.id) :
    (l.map (fun r => if r.id = id then f r else r)).find? (fun r => r.id == id) =
      (l.find? (fun r => r.id == id)).map f := by
  induction l with
  | nil => rfl
  | cons a t ih =>
    by_cases h : a.id = id
    · simp [List.find?, h, hf a]
    · have hb : (a.id == id) = false := by simp [h]
      simp [List.find?, h, hb, ih]

theorem findMessage_updateStatus (st : SchedState) (id : Nat) (s : MsgStatus) :
    findMessage (updateStatus st id s) id =
      (findMessage st id).map (fun r => { r with status := s }) := by
  unfold findMessage updateStatus
  exact find?_map_of_id_pres st.store id _ (fun r => rfl)

theorem statusOf_updateStatus (st : SchedState) (id : Nat) (s : MsgStatus)
    (h : (findMessage st id).isSome) :
    statusOf (updateStatus st id s) id = some s := by
  unfold statusOf
  rw [findMessage_updateStatus]
  rcases Option.isSome_iff_exists.mp h with ⟨r, hr⟩
  rw [hr]
  rfl

theorem store_updateStatus_length (st : SchedState) (id : Nat) (s : MsgStatus) :
    (updateStatus st id s).store.length = st.store.length := by
  unfold updateStatus
  exact List.length_map st.store _

theorem jobs_updateStatus (st : SchedState) (id : Nat) (s : MsgStatus) :
    (updateStatus st id s).jobs = st.jobs := rfl

theorem immediates_updateStatus (st : SchedState) (id : Nat) (s : MsgStatus) :
    (updateStatus st id s).immediates = st.immediates := rfl

theorem mapHas_mapDelete (m : List (Nat × ScheduledMessage)) (k : Nat) :
    mapHas (mapDelete m k) k = false := by
  unfold mapHas mapDelete
  induction m with
  | nil => rfl
  | cons p t ih =>
    by_cases h : p.1 = k
    · simp [h] at ih ⊢
    · simp [h] at ih ⊢

theorem mapDelete_mapDelete (m : List (Nat × ScheduledMessage)) (k : Nat) :
    mapDelete (mapDelete m k) k = mapDelete m k := by
  unfold mapDelete
  induction m with
  | nil => rfl
  | cons p t ih =>
    by_cases h : p.1 = k
    · simp [h] at ih ⊢
    · simp [h] at ih ⊢

theorem mapHas_append (a b : List (Nat × ScheduledMessage)) (k : Nat) :
    mapHas (a ++ b) k = (mapHas a k || mapHas b k) := by
  unfold mapHas
  exact List.any_append

theorem mapSet_of_not_has (m : List (Nat × ScheduledMessage)) (k : Nat)
    (v : ScheduledMessage) (h : mapHas m k = false) :
    mapSet m k v = m ++ [(k, v)] := by
  unfold mapSet
  rw [if_neg (by simp [h])]

theorem mapSet_keys_of_has (m : List (Nat × ScheduledMessage)) (k : Nat)
    (v : ScheduledMessage) (h : mapHas m k = true) :
    (mapSet m k v).map Prod.fst = m.map Prod.fst := by
  unfold mapSet
  rw [if_pos (by simp [h])]
  rw [List.map_map]
  apply List.map_congr_left
  intro p _
  by_cases hp : p.1 = k
  · simp [Function.comp, hp]
  · simp [Function.comp, hp]

/-- Keyed-map discipline: Map.set never introduces a duplicate key. -/
theorem mapSet_keys_nodup (m : List (Nat × ScheduledMessage)) (k : Nat)
    (v : ScheduledMessage) (h : (m.map Prod.fst).Nodup) :
    ((mapSet m k v).map Prod.fst).Nodup := by
  by_cases hk : mapHas m k = true
  · rw [mapSet_keys_of_has m k v hk]
    exact h
  · rw [mapSet_of_not_has m k v (by simpa using hk)]
    rw [List.map_append]
    refine List.Nodup.append h (List.nodup_singleton k) ?_
    intro x hx hy
    simp at hy
    subst hy
    apply hk
    unfold mapHas
    rw [List.any_eq_true]
    rcases List.mem_map.mp hx with ⟨p, hp, hpk⟩
    exact ⟨p, hp, by simp [hpk]⟩

/-! ## Arming and execution lemmas -/

theorem store_scheduleMessageJob (st : SchedState) (msg : ScheduledMessage)
    (now : Int) : (scheduleMessageJob st msg now).store = st.store := by
  unfold scheduleMessageJob
  by_cases h : isDueNow msg.scheduledTime now <;> simp [h]

theorem nextId_scheduleMessageJob (st : SchedState) (msg : ScheduledMessage)
    (now : Int) : (scheduleMessageJob st msg now).nextId = st.nextId := by
  unfold scheduleMessageJob
  by_cases h : isDueNow msg.scheduledTime now <;> simp [h]

theorem scheduleMessageJob_due (st : SchedState) (msg : ScheduledMessage)
    (now : Int) (h : isDueNow msg.scheduledTime now = true) :
    scheduleMessageJob st msg now =
      { st with immediates := st.immediates ++ [msg] } := by
  unfold scheduleMessageJob
  rw [if_pos h]

theorem scheduleMessageJob_future (st : SchedState) (msg : ScheduledMessage)
    (now : Int) (h : isDueNow msg.scheduledTime now = false) :
    scheduleMessageJob st msg now =
      { st with jobs := mapSet st.jobs msg.id msg } := by
  unfold scheduleMessageJob
  rw [if_neg (by simp [h])]

/-- The recurrence step either inserts nothing or appends exactly one
fresh pending row built from the successor time. -/
theorem scheduleRecurringMessage_store (st : SchedState)
    (msg : ScheduledMessage) (now : Int) :
    (nextRecurringTime msg.scheduledTime now msg.recurring = none ∧
      scheduleRecurringMessage st msg now = st) ∨
    (∃ nt, nextRecurringTime msg.scheduledTime now msg.recurring = some nt ∧
      (scheduleRecurringMessage st msg now).store = st.store ++
        [{ id := st.nextId, contactId := msg.contactId, content := msg.content,
           mediaUrls := msg.mediaUrls, scheduledTime := nt,
           recurring := msg.recurring, status := MsgStatus.pending,
           createdAt := now }] ∧
      (scheduleRecurringMessage st msg now).nextId = st.nextId + 1) := by
  unfold scheduleRecurringMessage
  cases h : nextRecurringTime msg.scheduledTime now msg.recurring with
  | none => exact Or.inl ⟨rfl, rfl⟩
  | some nt =>
    refine Or.inr ⟨nt, rfl, ?_, ?_⟩
    · rw [store_scheduleMessageJob]; rfl
    · rw [nextId_scheduleMessageJob]; rfl

/-- Both outcomes of the caught recipient-existence check continue into
the same insert-and-arm continuation. -/
theorem scheduleMessage_eq_insertAndArm (st : SchedState)
    (d : ScheduledMessageInsert) (numContacts numGroups : Int) (now : Int) :
    scheduleMessage st d numContacts numGroups now = insertAndArm st d now := by
  unfold scheduleMessage
  cases contactCheck numContacts numGroups d.contactId <;> rfl

theorem insertAndArm_spec (st : SchedState) (d : ScheduledMessageInsert)
    (now : Int) :
    (insertAndArm st d now).1 =
      { id := st.nextId, contactId := d.contactId, content := d.content,
        mediaUrls := d.mediaUrls, scheduledTime := d.scheduledTime,
        recurring := d.recurring, status := MsgStatus.pending,
        createdAt := now } ∧
    (insertAndArm st d now).2.store = st.store ++ [(insertAndArm st d now).1] ∧
    (insertAndArm st d now).2.nextId = st.nextId + 1 := by
  refine ⟨rfl, ?_, ?_⟩
  · unfold insertAndArm
    rw [store_scheduleMessageJob]
    rfl
  · unfold insertAndArm
    rw [nextId_scheduleMessageJob]
    rfl

/-- Characterisation of startup arming: over a fresh jobs map, folding
scheduleMessageJob over rows with distinct ids arms each row exactly
once, the due ones as near-immediate callbacks and the rest as
scheduledJobsMap entries, without touching the store. -/
theorem foldl_scheduleMessageJob (now : Int) (msgs : List ScheduledMessage)
    (st : SchedState)
    (hfresh : ∀ m ∈ msgs, mapHas st.jobs m.id = false)
    (hnodup : (msgs.map (fun m => m.id)).Nodup) :
    msgs.foldl (fun s m => scheduleMessageJob s m now) st =
      { st with
        immediates := st.immediates ++
          msgs.filter (fun m => isDueNow m.scheduledTime now),
        jobs := st.jobs ++
          (msgs.filter (fun m => !isDueNow m.scheduledTime now)).map
            (fun m => (m.id, m)) } := by
  induction msgs generalizing st with
  | nil => simp
  | cons m t ih =>
    simp only [List.foldl_cons]
    have hnd : (∀ x ∈ t, ¬ x.id = m.id) ∧
        (List.map (fun m => m.id) t).Nodup := by simpa using hnodup
    by_cases hdue : isDueNow m.scheduledTime now = true
    · rw [scheduleMessageJob_due st m now hdue]
      rw [ih { st with immediates := st.immediates ++ [m] }
        (fun x hx => hfresh x (List.mem_cons_of_mem m hx)) hnd.2]
      simp [hdue, List.append_assoc]
    · have hdue2 : isDueNow m.scheduledTime now = false := by
        simpa using hdue
      rw [scheduleMessageJob_future st m now hdue2]
      rw [mapSet_of_not_has st.jobs m.id m (hfresh m (List.mem_cons_self m t))]
      have hfresh2 : ∀ x ∈ t,
          mapHas (st.jobs ++ [(m.id, m)]) x.id = false := by
        intro x hx
        have h1 := hfresh x (List.mem_cons_of_mem m hx)
        have hne2 : m.id ≠ x.id := fun he => hnd.1 x hx he.symm
        rw [mapHas_append, h1]
        simp [mapHas, hne2]
      rw [ih { st with jobs := st.jobs ++ [(m.id, m)] } hfresh2 hnd.2]
      simp [hdue2, List.append_assoc]

theorem fireTimerJob_delivered (st : SchedState) (msg : ScheduledMessage)
    (now : Int) :
    fireTimerJob st msg SendOutcome.delivered now = timerSuccessBody st msg now := rfl

theorem fireTimerJob_failedSend (st : SchedState) (msg : ScheduledMessage)
    (e : String) (now : Int) :
    fireTimerJob st msg (SendOutcome.failedSend e) now =
      updateStatus st msg.id MsgStatus.failed := rfl

theorem fireImmediate_delivered (st : SchedState) (msg : ScheduledMessage)
    (now : Int) :
    fireImmediate st msg SendOutcome.delivered now =
      immediateSuccessBody { st with immediates := st.immediates.erase msg }
        msg now := rfl

theorem fireImmediate_failedSend (st : SchedState) (msg : ScheduledMessage)
    (e : String) (now : Int) :
    fireImmediate st msg (SendOutcome.failedSend e) now =
      updateStatus { st with immediates := st.immediates.erase msg }
        msg.id MsgStatus.failed := rfl

theorem find?_append_left (l1 l2 : List ScheduledMessage)
    (p : ScheduledMessage → Bool) (h : (l1.find? p).isSome) :
    (l1 ++ l2).find? p = l1.find? p := by
  induction l1 with
  | nil => simp [List.find?] at h
  | cons a t ih =>
    by_cases hp : p a = true
    · simp [List.find?, hp]
    · have hp2 : p a = false := by simpa using hp
      simp only [List.find?, hp2] at h ⊢
      exact ih h

theorem statusOf_scheduleRecurringMessage (st : SchedState)
    (msg : ScheduledMessage) (now : Int) (id : Nat)
    (h : (findMessage st id).isSome) :
    statusOf (scheduleRecurringMessage st msg now) id = statusOf st id := by
  rcases scheduleRecurringMessage_store st msg now with ⟨_, he⟩ | ⟨nt, _, hs, _⟩
  · rw [he]
  · unfold statusOf findMessage
    rw [hs]
    rw [find?_append_left _ _ _ h]

theorem isSome_findMessage_updateStatus (st : SchedState) (id : Nat)
    (s : MsgStatus) (h : (findMessage st id).isSome) :
    (findMessage (updateStatus st id s) id).isSome := by
  rw [findMessage_updateStatus]
  simpa using h

/-- Execution of an armed occurrence ends in sent or failed, never in
expired (nothing in the scheduler ever writes expired). -/
theorem fireImmediate_terminal (st : SchedState) (msg : ScheduledMessage)
    (outcome : SendOutcome) (now : Int)
    (h : (findMessage st msg.id).isSome) :
    statusOf (fireImmediate st msg outcome now) msg.id = some MsgStatus.sent ∨
    statusOf (fireImmediate st msg outcome now) msg.id = some MsgStatus.failed := by
  have h0 : (findMessage { st with immediates := st.immediates.erase msg }
      msg.id).isSome := h
  cases outcome with
  | delivered =>
    left
    rw [fireImmediate_delivered]
    unfold immediateSuccessBody
    by_cases hr : recurringRequested msg.recurring = true
    · rw [if_pos hr]
      rw [statusOf_scheduleRecurringMessage _ _ _ _
        (isSome_findMessage_updateStatus _ _ _ h0)]
      exact statusOf_updateStatus _ _ _ h0
    · rw [if_neg (by simp [hr])]
      exact statusOf_updateStatus _ _ _ h0
  | failedSend e =>
    right
    rw [fireImmediate_failedSend]
    exact statusOf_updateStatus _ _ _ h0

theorem map_setStatus_idem (l : List ScheduledMessage) (id : Nat)
    (s : MsgStatus) :
    (l.map (fun r => if r.id = id then { r with status := s } else r)).map
        (fun r => if r.id = id then { r with status := s } else r) =
      l.map (fun r => if r.id = id then { r with status := s } else r) := by
  induction l with
  | nil => rfl
  | cons a t ih =>
    simp only [List.map_cons]
    rw [ih]
    congr 1
    by_cases h : a.id = id
    · simp [h, setStatus_id]
    · simp [h]

/-! ## Claims -/

/-- Claim C2: a pending record whose scheduledTime is at or before now
plus the grace window is armed on the near-immediate path — the record is
appended to the outstanding setTimeout callbacks, the scheduledJobsMap
and the store are untouched (in particular nothing is marked expired) —
and firing that callback ends in sent or failed, never expired.  This
covers any record scheduled up to 4999 ms after now, hence every record
scheduled in the past, such as 5 seconds ago. -/
theorem claim_C2 (st : SchedState) (msg : ScheduledMessage) (now : Int)
    (h : msg.scheduledTime ≤ now + 4999) :
    (scheduleMessageJob st msg now).immediates = st.immediates ++ [msg] ∧
    (scheduleMessageJob st msg now).jobs = st.jobs ∧
    (scheduleMessageJob st msg now).store = st.store ∧
    (∀ (st2 : SchedState) (outcome : SendOutcome) (now2 : Int),
      (findMessage st2 msg.id).isSome →
      statusOf (fireImmediate st2 msg outcome now2) msg.id =
          some MsgStatus.sent ∨
      statusOf (fireImmediate st2 msg outcome now2) msg.id =
          some MsgStatus.failed) := by
  have hdue : isDueNow msg.scheduledTime now = true := by
    unfold isDueNow
    have h5 : msg.scheduledTime - now < 5000 := by omega
    simp [h5]
  rw [scheduleMessageJob_due st msg now hdue]
  exact ⟨rfl, rfl, rfl, fun st2 outcome now2 hs =>
    fireImmediate_terminal st2 msg outcome now2 hs⟩

/-- Claim C3: a failed send is caught by the execute path and converted
into a status update to failed; the store length is unchanged (no
successor row, whatever the recurrence), no timer or callback is re-armed
(no retry), and the error does not escape the callback: its try body
yields exactly the caught error and the callback itself returns a plain
state in both the timer and the near-immediate paths. -/
theorem claim_C3 (st : SchedState) (msg : ScheduledMessage) (e : String)
    (now : Int) :
    fireTimerJob st msg (SendOutcome.failedSend e) now =
      updateStatus st msg.id MsgStatus.failed ∧
    timerTryBody st msg now (SendOutcome.failedSend e) = Except.error e ∧
    (fireTimerJob st msg (SendOutcome.failedSend e) now).store.length =
      st.store.length ∧
    (fireTimerJob st msg (SendOutcome.failedSend e) now).jobs = st.jobs ∧
    (fireTimerJob st msg (SendOutcome.failedSend e) now).immediates =
      st.immediates ∧
    ((findMessage st msg.id).isSome →
      statusOf (fireTimerJob st msg (SendOutcome.failedSend e) now) msg.id =
        some MsgStatus.failed) ∧
    (fireImmediate st msg (SendOutcome.failedSend e) now).store.length =
      st.store.length ∧
    (fireImmediate st msg (SendOutcome.failedSend e) now).jobs = st.jobs ∧
    ((findMessage st msg.id).isSome →
      statusOf (fireImmediate st msg (SendOutcome.failedSend e) now) msg.id =
        some MsgStatus.failed) := by
  refine ⟨rfl, rfl, ?_, rfl, rfl, ?_, ?_, rfl, ?_⟩
  · rw [fireTimerJob_failedSend]
    exact store_updateStatus_length st msg.id MsgStatus.failed
  · intro hs
    rw [fireTimerJob_failedSend]
    exact statusOf_updateStatus _ _ _ hs
  · rw [fireImmediate_failedSend]
    exact store_updateStatus_length _ msg.id MsgStatus.failed
  · intro hs
    rw [fireImmediate_failedSend]
    exact statusOf_updateStatus _ _ _ hs

/-- Witness for claim C3 at a concrete weekly record. -/
theorem claim_C3_witness :
    (findMessage
        { store := [⟨1, 7, "oi", [], 0, "weekly", MsgStatus.pending, 0⟩],
          jobs := [], immediates := [], nextId := 2 } 1).isSome = true ∧
    statusOf
        (fireTimerJob
          { store := [⟨1, 7, "oi", [], 0, "weekly", MsgStatus.pending, 0⟩],
            jobs := [], immediates := [], nextId := 2 }
          ⟨1, 7, "oi", [], 0, "weekly", MsgStatus.pending, 0⟩
          (SendOutcome.failedSend "boom") 5) 1 = some MsgStatus.failed ∧
    (fireTimerJob
        { store := [⟨1, 7, "oi", [], 0, "weekly", MsgStatus.pending, 0⟩],
          jobs := [], immediates := [], nextId := 2 }
        ⟨1, 7, "oi", [], 0, "weekly", MsgStatus.pending, 0⟩
        (SendOutcome.failedSend "boom") 5).store.length = 1 :=
  ⟨by decide,
   (claim_C3
      { store := [⟨1, 7, "oi", [], 0, "weekly", MsgStatus.pending, 0⟩],
        jobs := [], immediates := [], nextId := 2 }
      ⟨1, 7, "oi", [], 0, "weekly", MsgStatus.pending, 0⟩ "boom" 5).2.2.2.2.2.1
     (by decide),
   by decide⟩

/-- Claim C10: the recipient-existence check is wrapped in a try whose
catch only logs, so even when the check raises not-found the create path
persists the record as pending and arms it, and the whole outcome is
independent of the transport contact and group lists. -/
theorem claim_C10 (st : SchedState) (d : ScheduledMessageInsert)
    (numContacts numGroups nc2 ng2 : Int) (now : Int) (e : String)
    (herr : contactCheck numContacts numGroups d.contactId = Except.error e) :
    scheduleMessage st d numContacts numGroups now = insertAndArm st d now ∧
    scheduleMessage st d numContacts numGroups now =
      scheduleMessage st d nc2 ng2 now ∧
    (scheduleMessage st d numContacts numGroups now).1.status =
      MsgStatus.pending ∧
    (scheduleMessage st d numContacts numGroups now).1 ∈
      (scheduleMessage st d numContacts numGroups now).2.store := by
  have h1 := scheduleMessage_eq_insertAndArm st d numContacts numGroups now
  have h2 := scheduleMessage_eq_insertAndArm st d nc2 ng2 now
  obtain ⟨hrec, hstore, _⟩ := insertAndArm_spec st d now
  refine ⟨h1, h1.trans h2.symm, ?_, ?_⟩
  · rw [h1, hrec]
  · rw [h1, hstore]
    exact List.mem_append_right _ (List.mem_singleton_self _)

/-- Witness for claim C10: contact id 5 with empty contact and group
lists fails the existence check, yet the record is persisted pending. -/
theorem claim_C10_witness :
    contactCheck 0 0 5 = Except.error "contato ou grupo nao encontrado" ∧
    (scheduleMessage { store := [], jobs := [], immediates := [], nextId := 1 }
        ⟨5, "oi", [], 999999999, "none"⟩ 0 0 0).1.status = MsgStatus.pending :=
  ⟨rfl,
   (claim_C10 { store := [], jobs := [], immediates := [], nextId := 1 }
      ⟨5, "oi", [], 999999999, "none"⟩ 0 0 0 0 0
      "contato ou grupo nao encontrado" rfl).2.2.1⟩

/-- Claim C8: for any insert payload the create path persists the record
with status pending and returns exactly the persisted record; under the
serial-id invariant the returned id differs from every id already in the
store and the invariant is preserved, so ids returned by successive calls
are pairwise distinct. -/
theorem claim_C8 (st : SchedState) (d : ScheduledMessageInsert)
    (numContacts numGroups : Int) (now : Int)
    (hinv : ∀ r ∈ st.store, r.id < st.nextId) :
    (scheduleMessage st d numContacts numGroups now).1.status =
      MsgStatus.pending ∧
    (scheduleMessage st d numContacts numGroups now).1 ∈
      (scheduleMessage st d numContacts numGroups now).2.store ∧
    (scheduleMessage st d numContacts numGroups now).1.id ∉
      st.store.map (fun r => r.id) ∧
    (∀ r ∈ (scheduleMessage st d numContacts numGroups now).2.store,
      r.id < (scheduleMessage st d numContacts numGroups now).2.nextId) := by
  rw [scheduleMessage_eq_insertAndArm]
  obtain ⟨hrec, hstore, hnext⟩ := insertAndArm_spec st d now
  have hid : (insertAndArm st d now).1.id = st.nextId := by rw [hrec]
  refine ⟨by rw [hrec], ?_, ?_, ?_⟩
  · rw [hstore]
    exact List.mem_append_right _ (List.mem_singleton_self _)
  · rw [hid]
    intro hmem
    rcases List.mem_map.mp hmem with ⟨r, hr, hrid⟩
    exact absurd hrid (Nat.ne_of_lt (hinv r hr))
  · intro r hr
    rw [hstore] at hr
    rw [hnext]
    rcases List.mem_append.mp hr with hold | hnew
    · exact Nat.lt_succ_of_lt (hinv r hold)
    · rcases List.mem_singleton.mp hnew with rfl
      rw [hid]
      exact Nat.lt_succ_self _

/-- Witness for claim C8 on a store already holding one record. -/
theorem claim_C8_witness :
    (∀ r ∈ [(⟨1, 7, "oi", [], 0, "none", MsgStatus.sent, 0⟩ : ScheduledMessage)],
      r.id < 2) ∧
    (scheduleMessage
        { store := [⟨1, 7, "oi", [], 0, "none", MsgStatus.sent, 0⟩],
          jobs := [], immediates := [], nextId := 2 }
        ⟨3, "hello", [], 999999999, "daily"⟩ 9 9 0).1.status =
      MsgStatus.pending :=
  ⟨by decide,
   (claim_C8
      { store := [⟨1, 7, "oi", [], 0, "none", MsgStatus.sent, 0⟩],
        jobs := [], immediates := [], nextId := 2 }
      ⟨3, "hello", [], 999999999, "daily"⟩ 9 9 0 (by decide)).1⟩

/-- Counterexample to claim C4: a future-armed record whose send fails
keeps its scheduledJobsMap entry — the failure catch performs no map
cleanup — so a record in terminal status failed still has a timer entry,
contradicting the claimed invariant. -/
theorem claim_C4_counterexample :
    statusOf
        (fireTimerJob
          (scheduleMessageJob
            { store := [⟨1, 7, "oi", [], 10000000, "none", MsgStatus.pending, 0⟩],
              jobs := [], immediates := [], nextId := 2 }
            ⟨1, 7, "oi", [], 10000000, "none", MsgStatus.pending, 0⟩ 0)
          ⟨1, 7, "oi", [], 10000000, "none", MsgStatus.pending, 0⟩
          (SendOutcome.failedSend "boom") 10000001) 1 = some MsgStatus.failed ∧
    mapHas
        (fireTimerJob
          (scheduleMessageJob
            { store := [⟨1, 7, "oi", [], 10000000, "none", MsgStatus.pending, 0⟩],
              jobs := [], immediates := [], nextId := 2 }
            ⟨1, 7, "oi", [], 10000000, "none", MsgStatus.pending, 0⟩ 0)
          ⟨1, 7, "oi", [], 10000000, "none", MsgStatus.pending, 0⟩
          (SendOutcome.failedSend "boom") 10000001).jobs 1 = true := by
  decide

/-- Claim C4 as amended: the scheduledJobsMap is keyed, so at most one
entry exists per id; a successful timer execution removes its entry; the
near-immediate arming path never creates an entry; but a failed timer
execution leaves the map untouched, so the failed record's entry
survives. -/
theorem claim_C4_amended (st : SchedState) (msg : ScheduledMessage)
    (e : String) (now : Int) :
    mapHas (fireTimerJob st msg SendOutcome.delivered now).jobs msg.id = false ∧
    (fireTimerJob st msg (SendOutcome.failedSend e) now).jobs = st.jobs ∧
    (mapHas st.jobs msg.id = true →
      mapHas (fireTimerJob st msg (SendOutcome.failedSend e) now).jobs msg.id =
        true) ∧
    (isDueNow msg.scheduledTime now = true →
      (scheduleMessageJob st msg now).jobs = st.jobs) ∧
    ((st.jobs.map Prod.fst).Nodup →
      ∀ v, ((mapSet st.jobs msg.id v).map Prod.fst).Nodup) := by
  refine ⟨?_, rfl, ?_, ?_, ?_⟩
  · rw [fireTimerJob_delivered]
    have hex : ∃ m2, (timerSuccessBody st msg now).jobs = mapDelete m2 msg.id :=
      ⟨_, rfl⟩
    rcases hex with ⟨m2, hm2⟩
    rw [hm2]
    exact mapHas_mapDelete m2 msg.id
  · intro h
    exact h
  · intro h
    rw [scheduleMessageJob_due st msg now h]
  · intro h v
    exact mapSet_keys_nodup st.jobs msg.id v h

/-- Witness for the amended claim C4: the stale-entry behaviour at a
concrete armed record. -/
theorem claim_C4_amended_witness :
    mapHas [((1 : Nat),
        (⟨1, 7, "oi", [], 10000000, "none", MsgStatus.pending, 0⟩ :
          ScheduledMessage))] 1 = true ∧
    mapHas
        (fireTimerJob
          { store := [⟨1, 7, "oi", [], 10000000, "none", MsgStatus.pending, 0⟩],
            jobs := [(1, ⟨1, 7, "oi", [], 10000000, "none", MsgStatus.pending, 0⟩)],
            immediates := [], nextId := 2 }
          ⟨1, 7, "oi", [], 10000000, "none", MsgStatus.pending, 0⟩
          (SendOutcome.failedSend "boom") 10000001).jobs 1 = true :=
  ⟨by decide,
   (claim_C4_amended
      { store := [⟨1, 7, "oi", [], 10000000, "none", MsgStatus.pending, 0⟩],
        jobs := [(1, ⟨1, 7, "oi", [], 10000000, "none", MsgStatus.pending, 0⟩)],
        immediates := [], nextId := 2 }
      ⟨1, 7, "oi", [], 10000000, "none", MsgStatus.pending, 0⟩
      "boom" 10000001).2.2.1 (by decide)⟩

/-- Counterexample to claim C5: updateScheduledMessage succeeds on a
record whose status is sent and resets it to pending, so the update is
not restricted to pending records and the status machine re-enters
pending for the same id. -/
theorem claim_C5_counterexample :
    statusOf
        { store := [⟨1, 7, "oi", [], 0, "none", MsgStatus.sent, 0⟩],
          jobs := [], immediates := [], nextId := 2 } 1 = some MsgStatus.sent ∧
    (updateScheduledMessage
        { store := [⟨1, 7, "oi", [], 0, "none", MsgStatus.sent, 0⟩],
          jobs := [], immediates := [], nextId := 2 } 1
        ⟨7, "tchau", [], 500000000, "none"⟩ 0).1.isSome = true ∧
    statusOf
        (updateScheduledMessage
          { store := [⟨1, 7, "oi", [], 0, "none", MsgStatus.sent, 0⟩],
            jobs := [], immediates := [], nextId := 2 } 1
          ⟨7, "tchau", [], 500000000, "none"⟩ 0).2 1 =
      some MsgStatus.pending := by
  decide

/-- Claim C5 as amended: updateScheduledMessage returns not-found exactly
when the id is absent, and on any existing record — whatever its current
status — it overwrites the row with the payload, resets the status to
pending (re-entering pending for the same id) and returns the updated
row.  Monotonicity holds only for the execute and cancel paths. -/
theorem claim_C5_amended (st : SchedState) (id : Nat)
    (d : ScheduledMessageInsert) (now : Int) :
    (findMessage st id = none → updateScheduledMessage st id d now = (none, st)) ∧
    (∀ r, findMessage st id = some r →
      (updateScheduledMessage st id d now).1 = some (applyInsertPending r d) ∧
      statusOf (updateScheduledMessage st id d now).2 id =
        some MsgStatus.pending) := by
  constructor
  · intro h
    unfold updateScheduledMessage
    rw [h]
  · intro r hr
    unfold updateScheduledMessage
    rw [hr]
    refine ⟨rfl, ?_⟩
    unfold statusOf findMessage
    rw [store_scheduleMessageJob]
    show ((st.store.map
        (fun q : ScheduledMessage =>
          if q.id = id then applyInsertPending q d else q)).find?
        (fun r => r.id == id)).map (fun r => r.status) = some MsgStatus.pending
    rw [find?_map_of_id_pres st.store id (fun q => applyInsertPending q d)
      (fun q => rfl)]
    rw [show List.find? (fun r => r.id == id) st.store = some r from hr]
    rfl

/-- Witness for the amended claim C5 on a canceled record that the update
path happily resets to pending. -/
theorem claim_C5_amended_witness :
    findMessage
        { store := [⟨1, 7, "oi", [], 0, "none", MsgStatus.canceled, 0⟩],
          jobs := [], immediates := [], nextId := 2 } 1 =
      some ⟨1, 7, "oi", [], 0, "none", MsgStatus.canceled, 0⟩ ∧
    statusOf
        (updateScheduledMessage
          { store := [⟨1, 7, "oi", [], 0, "none", MsgStatus.canceled, 0⟩],
            jobs := [], immediates := [], nextId := 2 } 1
          ⟨7, "tchau", [], 500000000, "none"⟩ 0).2 1 =
      some MsgStatus.pending :=
  ⟨by decide,
   ((claim_C5_amended
      { store := [⟨1, 7, "oi", [], 0, "none", MsgStatus.canceled, 0⟩],
        jobs := [], immediates := [], nextId := 2 } 1
      ⟨7, "tchau", [], 500000000, "none"⟩ 0).2
      ⟨1, 7, "oi", [], 0, "none", MsgStatus.canceled, 0⟩ (by decide)).2⟩

/-- Counterexample to claim C6: cancelScheduledMessage on a record whose
status is already terminal (sent) is not a no-op returning the record
unchanged — it overwrites the status to canceled and returns the
rewritten row. -/
theorem claim_C6_counterexample :
    statusOf
        { store := [⟨1, 7, "oi", [], 0, "none", MsgStatus.sent, 0⟩],
          jobs := [], immediates := [], nextId := 2 } 1 = some MsgStatus.sent ∧
    (cancelScheduledMessage
        { store := [⟨1, 7, "oi", [], 0, "none", MsgStatus.sent, 0⟩],
          jobs := [], immediates := [], nextId := 2 } 1).1 =
      some ⟨1, 7, "oi", [], 0, "none", MsgStatus.canceled, 0⟩ ∧
    (cancelScheduledMessage
        { store := [⟨1, 7, "oi", [], 0, "none", MsgStatus.sent, 0⟩],
          jobs := [], immediates := [], nextId := 2 } 1).1 ≠
      some ⟨1, 7, "oi", [], 0, "none", MsgStatus.sent, 0⟩ ∧
    statusOf
        (cancelScheduledMessage
          { store := [⟨1, 7, "oi", [], 0, "none", MsgStatus.sent, 0⟩],
            jobs := [], immediates := [], nextId := 2 } 1).2 1 =
      some MsgStatus.canceled := by
  decide

/-- Claim C6 as amended: cancel returns not-found exactly on an unknown
id; on any existing record — pending or terminal — it sets the status
column to canceled, removes any scheduledJobsMap entry and returns the
canceled row; a second cancel returns the same canceled row again and
leaves the store and the jobs map unchanged, so cancelling twice never
errors. -/
theorem claim_C6_amended (st : SchedState) (id : Nat) :
    (findMessage st id = none → cancelScheduledMessage st id = (none, st)) ∧
    (∀ r, findMessage st id = some r →
      (cancelScheduledMessage st id).1 =
        some { r with status := MsgStatus.canceled } ∧
      statusOf (cancelScheduledMessage st id).2 id = some MsgStatus.canceled ∧
      mapHas (cancelScheduledMessage st id).2.jobs id = false ∧
      (cancelScheduledMessage (cancelScheduledMessage st id).2 id).1 =
        some { r with status := MsgStatus.canceled } ∧
      (cancelScheduledMessage (cancelScheduledMessage st id).2 id).2.store =
        (cancelScheduledMessage st id).2.store ∧
      (cancelScheduledMessage (cancelScheduledMessage st id).2 id).2.jobs =
        (cancelScheduledMessage st id).2.jobs) := by
  constructor
  · intro h
    unfold cancelScheduledMessage
    rw [h]
  · intro r hr
    have h2 : (cancelScheduledMessage st id).2 =
        { store := st.store.map
            (fun q => if q.id = id then { q with status := MsgStatus.canceled } else q),
          jobs := mapDelete st.jobs id,
          immediates := st.immediates,
          nextId := st.nextId } := by
      unfold cancelScheduledMessage updateStatus
      rw [hr]
    have hf2 : findMessage (cancelScheduledMessage st id).2 id =
        some { r with status := MsgStatus.canceled } := by
      rw [h2]
      unfold findMessage
      show (st.store.map
          (fun q => if q.id = id then { q with status := MsgStatus.canceled } else q)).find?
          (fun x => x.id == id) = _
      rw [find?_map_of_id_pres st.store id
        (fun q => { q with status := MsgStatus.canceled }) (fun q => rfl)]
      rw [show List.find? (fun x => x.id == id) st.store = some r from hr]
      rfl
    rw [h2] at hf2
    refine ⟨?_, ?_, ?_, ?_, ?_, ?_⟩
    · unfold cancelScheduledMessage
      rw [hr]
    · rw [h2]
      unfold statusOf
      rw [hf2]
      rfl
    · rw [h2]
      exact mapHas_mapDelete st.jobs id
    · rw [h2]
      unfold cancelScheduledMessage
      rw [hf2]
    · rw [h2]
      unfold cancelScheduledMessage
      rw [hf2]
      show (st.store.map
          (fun q => if q.id = id then { q with status := MsgStatus.canceled } else q)).map
          (fun q => if q.id = id then { q with status := MsgStatus.canceled } else q) =
        st.store.map
          (fun q => if q.id = id then { q with status := MsgStatus.canceled } else q)
      exact map_setStatus_idem st.store id MsgStatus.canceled
    · rw [h2]
      unfold cancelScheduledMessage
      rw [hf2]
      show mapDelete (mapDelete st.jobs id) id = mapDelete st.jobs id
      exact mapDelete_mapDelete st.jobs id

/-- Witness for the amended claim C6 on a pending record. -/
theorem claim_C6_amended_witness :
    findMessage
        { store := [⟨1, 7, "oi", [], 0, "none", MsgStatus.pending, 0⟩],
          jobs := [(1, ⟨1, 7, "oi", [], 0, "none", MsgStatus.pending, 0⟩)],
          immediates := [], nextId := 2 } 1 =
      some ⟨1, 7, "oi", [], 0, "none", MsgStatus.pending, 0⟩ ∧
    (statusOf
        (cancelScheduledMessage
          { store := [⟨1, 7, "oi", [], 0, "none", MsgStatus.pending, 0⟩],
            jobs := [(1, ⟨1, 7, "oi", [], 0, "none", MsgStatus.pending, 0⟩)],
            immediates := [], nextId := 2 } 1).2 1 = some MsgStatus.canceled ∧
      mapHas
        (cancelScheduledMessage
          { store := [⟨1, 7, "oi", [], 0, "none", MsgStatus.pending, 0⟩],
            jobs := [(1, ⟨1, 7, "oi", [], 0, "none", MsgStatus.pending, 0⟩)],
            immediates := [], nextId := 2 } 1).2.jobs 1 = false) :=
  ⟨by decide,
   ⟨((claim_C6_amended
      { store := [⟨1, 7, "oi", [], 0, "none", MsgStatus.pending, 0⟩],
        jobs := [(1, ⟨1, 7, "oi", [], 0, "none", MsgStatus.pending, 0⟩)],
        immediates := [], nextId := 2 } 1).2
      ⟨1, 7, "oi", [], 0, "none", MsgStatus.pending, 0⟩ (by decide)).2.1,
    ((claim_C6_amended
      { store := [⟨1, 7, "oi", [], 0, "none", MsgStatus.pending, 0⟩],
        jobs := [(1, ⟨1, 7, "oi", [], 0, "none", MsgStatus.pending, 0⟩)],
        immediates := [], nextId := 2 } 1).2
      ⟨1, 7, "oi", [], 0, "none", MsgStatus.pending, 0⟩ (by decide)).2.2.1⟩⟩

theorem nextRecurringTime_past (sched now : Int) (rec : String)
    (h : sched < now) :
    nextRecurringTime sched now rec =
      some (if setTimeOfDay now (hourFromTime sched) (minFromTime sched) < now
        then setTimeOfDay now (hourFromTime sched) (minFromTime sched) + msPerDay
        else setTimeOfDay now (hourFromTime sched) (minFromTime sched)) := by
  unfold nextRecurringTime
  rw [if_pos h]

theorem nextRecurringTime_daily (sched now : Int) (h : ¬ sched < now) :
    nextRecurringTime sched now "daily" = some (sched + msPerDay) := by
  unfold nextRecurringTime
  rw [if_neg h]
  rfl

theorem nextRecurringTime_weekly (sched now : Int) (h : ¬ sched < now) :
    nextRecurringTime sched now "weekly" = some (sched + 7 * msPerDay) := by
  unfold nextRecurringTime
  rw [if_neg h]
  rfl

theorem nextRecurringTime_monthly (sched now : Int) (h : ¬ sched < now) :
    nextRecurringTime sched now "monthly" = some (addCalendarMonth sched) := by
  unfold nextRecurringTime
  rw [if_neg h]
  rfl

/-- Re-anchoring lands at or after now and preserves the original hour
and minute. -/
theorem reanchor_ge (sched now t1 : Int)
    (ht1 : t1 = setTimeOfDay now (hourFromTime sched) (minFromTime sched)) :
    now ≤ (if t1 < now then t1 + msPerDay else t1) ∧
    hourFromTime (if t1 < now then t1 + msPerDay else t1) =
      hourFromTime sched ∧
    minFromTime (if t1 < now then t1 + msPerDay else t1) =
      minFromTime sched := by
  subst ht1
  have hh := hourFromTime_bounds sched
  have hm := minFromTime_bounds sched
  have hst := hourFromTime_setTimeOfDay now (hourFromTime sched)
    (minFromTime sched) hh.1 hh.2 hm.1 hm.2
  have hlow := setTimeOfDay_lower now (hourFromTime sched) (minFromTime sched)
    hh.1 hm.1
  have hsucc := lt_dayNumber_succ now
  by_cases hc : setTimeOfDay now (hourFromTime sched) (minFromTime sched) < now
  · rw [if_pos hc]
    refine ⟨?_, ?_, ?_⟩
    · simp only [msPerDay] at hlow hsucc ⊢
      omega
    · rw [hourFromTime_add_day, hst.1]
    · rw [minFromTime_add_day, hst.2]
  · rw [if_neg hc]
    exact ⟨by omega, hst.1, hst.2⟩

/-- Counterexample to claim C1: a weekly record firing one second after
its scheduled time.  The claim says the successor is the current
scheduledTime plus seven days (that sum is in the future, so the claimed
re-anchoring does not apply), but the code only checks whether the
current scheduledTime itself is past — it is, by one second — so it
re-anchors and yields scheduledTime plus one single day. -/
theorem claim_C1_counterexample :
    (3 * 86400000 + 10 * 3600000 : Int) < 3 * 86400000 + 10 * 3600000 + 1000 ∧
    (3 * 86400000 + 10 * 3600000 + 1000 : Int) <
      3 * 86400000 + 10 * 3600000 + 7 * 86400000 ∧
    nextRecurringTime (3 * 86400000 + 10 * 3600000)
        (3 * 86400000 + 10 * 3600000 + 1000) "weekly" =
      some (3 * 86400000 + 10 * 3600000 + 86400000) ∧
    (scheduleRecurringMessage
        ⟨[⟨1, 7, "oi", [], 3 * 86400000 + 10 * 3600000, "weekly",
            MsgStatus.sent, 0⟩], [], [], 2⟩
        ⟨1, 7, "oi", [], 3 * 86400000 + 10 * 3600000, "weekly",
          MsgStatus.sent, 0⟩
        (3 * 86400000 + 10 * 3600000 + 1000)).store.map
      (fun r => r.scheduledTime) =
      [3 * 86400000 + 10 * 3600000, 3 * 86400000 + 10 * 3600000 + 86400000] ∧
    (3 * 86400000 + 10 * 3600000 + 86400000 : Int) ≠
      3 * 86400000 + 10 * 3600000 + 7 * 86400000 := by
  decide

/-- Claim C1 as amended: when the current occurrence of a daily, weekly
or monthly record completes, exactly one new record is inserted, with a
fresh id, status pending, the same contact, content, media and
recurrence, and a successor time that preserves the original hour and
minute and is never in the past.  The successor time is the current
scheduledTime plus the period (one day, seven days, or one calendar
month) only when the current scheduledTime is not yet past; whenever the
current scheduledTime is already past — which includes every on-time
firing, since the callback runs after the scheduled instant — the period
is ignored and the time is re-anchored to the current date at the
original hour and minute (seconds zeroed), moved one day forward if that
is still past. -/
theorem claim_C1_amended (st : SchedState) (msg : ScheduledMessage)
    (now : Int)
    (hrec : msg.recurring = "daily" ∨ msg.recurring = "weekly" ∨
      msg.recurring = "monthly") :
    ∃ nt,
      nextRecurringTime msg.scheduledTime now msg.recurring = some nt ∧
      (scheduleRecurringMessage st msg now).store = st.store ++
        [{ id := st.nextId, contactId := msg.contactId,
           content := msg.content, mediaUrls := msg.mediaUrls,
           scheduledTime := nt, recurring := msg.recurring,
           status := MsgStatus.pending, createdAt := now }] ∧
      (scheduleRecurringMessage st msg now).nextId = st.nextId + 1 ∧
      hourFromTime nt = hourFromTime msg.scheduledTime ∧
      minFromTime nt = minFromTime msg.scheduledTime ∧
      now ≤ nt ∧
      (msg.scheduledTime < now →
        nt = (if setTimeOfDay now (hourFromTime msg.scheduledTime)
              (minFromTime msg.scheduledTime) < now
          then setTimeOfDay now (hourFromTime msg.scheduledTime)
            (minFromTime msg.scheduledTime) + msPerDay
          else setTimeOfDay now (hourFromTime msg.scheduledTime)
            (minFromTime msg.scheduledTime))) ∧
      (¬ msg.scheduledTime < now →
        now < nt ∧
        (msg.recurring = "daily" → nt = msg.scheduledTime + msPerDay) ∧
        (msg.recurring = "weekly" → nt = msg.scheduledTime + 7 * msPerDay) ∧
        (msg.recurring = "monthly" →
          nt = addCalendarMonth msg.scheduledTime)) := by
  by_cases hpast : msg.scheduledTime < now
  · have hv := nextRecurringTime_past msg.scheduledTime now msg.recurring hpast
    rcases scheduleRecurringMessage_store st msg now with ⟨hn, _⟩ |
      ⟨nt2, hsome2, hs, hn⟩
    · rw [hv] at hn
      simp at hn
    · have hnt2 : nt2 =
          (if setTimeOfDay now (hourFromTime msg.scheduledTime)
                (minFromTime msg.scheduledTime) < now
            then setTimeOfDay now (hourFromTime msg.scheduledTime)
              (minFromTime msg.scheduledTime) + msPerDay
            else setTimeOfDay now (hourFromTime msg.scheduledTime)
              (minFromTime msg.scheduledTime)) :=
        Option.some_inj.mp (hsome2.symm.trans hv)
      subst hnt2
      have hre := reanchor_ge msg.scheduledTime now _ rfl
      exact ⟨_, hv, hs, hn, hre.2.1, hre.2.2, hre.1, fun _ => rfl,
        fun hc => absurd hpast hc⟩
  · rcases hrec with hr | hr | hr
    · have hv : nextRecurringTime msg.scheduledTime now msg.recurring =
          some (msg.scheduledTime + msPerDay) := by
        rw [hr]
        exact nextRecurringTime_daily msg.scheduledTime now hpast
      rcases scheduleRecurringMessage_store st msg now with ⟨hn, _⟩ |
        ⟨nt2, hsome2, hs, hn⟩
      · rw [hv] at hn
        simp at hn
      · have hnt2 : nt2 = msg.scheduledTime + msPerDay :=
          Option.some_inj.mp (hsome2.symm.trans hv)
        subst hnt2
        refine ⟨_, hv, hs, hn, hourFromTime_add_day _, minFromTime_add_day _,
          ?_, fun hc => absurd hc hpast, fun _ => ⟨?_, fun _ => rfl, ?_, ?_⟩⟩
        · simp only [msPerDay]
          omega
        · simp only [msPerDay]
          omega
        · intro h2
          exact absurd (hr.symm.trans h2) (by decide)
        · intro h3
          exact absurd (hr.symm.trans h3) (by decide)
    · have hv : nextRecurringTime msg.scheduledTime now msg.recurring =
          some (msg.scheduledTime + 7 * msPerDay) := by
        rw [hr]
        exact nextRecurringTime_weekly msg.scheduledTime now hpast
      rcases scheduleRecurringMessage_store st msg now with ⟨hn, _⟩ |
        ⟨nt2, hsome2, hs, hn⟩
      · rw [hv] at hn
        simp at hn
      · have hnt2 : nt2 = msg.scheduledTime + 7 * msPerDay :=
          Option.some_inj.mp (hsome2.symm.trans hv)
        subst hnt2
        refine ⟨_, hv, hs, hn, hourFromTime_add_week _, minFromTime_add_week _,
          ?_, fun hc => absurd hc hpast, fun _ => ⟨?_, ?_, fun _ => rfl, ?_⟩⟩
        · simp only [msPerDay]
          omega
        · simp only [msPerDay]
          omega
        · intro h2
          exact absurd (hr.symm.trans h2) (by decide)
        · intro h3
          exact absurd (hr.symm.trans h3) (by decide)
    · have hv : nextRecurringTime msg.scheduledTime now msg.recurring =
          some (addCalendarMonth msg.scheduledTime) := by
        rw [hr]
        exact nextRecurringTime_monthly msg.scheduledTime now hpast
      rcases scheduleRecurringMessage_store st msg now with ⟨hn, _⟩ |
        ⟨nt2, hsome2, hs, hn⟩
      · rw [hv] at hn
        simp at hn
      · have hnt2 : nt2 = addCalendarMonth msg.scheduledTime :=
          Option.some_inj.mp (hsome2.symm.trans hv)
        subst hnt2
        have hlt := lt_addCalendarMonth msg.scheduledTime
        refine ⟨_, hv, hs, hn, hourFromTime_addCalendarMonth _,
          minFromTime_addCalendarMonth _, by omega,
          fun hc => absurd hc hpast, fun _ => ⟨by omega, ?_, ?_, fun _ => rfl⟩⟩
        · intro h2
          exact absurd (hr.symm.trans h2) (by decide)
        · intro h3
          exact absurd (hr.symm.trans h3) (by decide)

/-- Witness for the amended claim C1: a daily record still in the future
gets its successor exactly one day later. -/
theorem claim_C1_amended_witness :
    nextRecurringTime 100000000 0 "daily" = some (100000000 + msPerDay) :=
  (claim_C1_amended ⟨[], [], [], 1⟩
      ⟨1, 7, "oi", [], 100000000, "daily", MsgStatus.sent, 0⟩ 0
      (Or.inl rfl)).elim
    (fun nt h => by
      have hfut := h.2.2.2.2.2.2.2 (by decide)
      have heq : nt = 100000000 + msPerDay := hfut.2.1 rfl
      rw [← heq]
      exact h.1)

/-- Claim C7: initializeScheduler arms exactly the persisted pending
rows, each exactly once — the due ones through the near-immediate branch
and the future ones as scheduledJobsMap entries — using the same
scheduleMessageJob branch as the create path, and touches nothing else. -/
theorem claim_C7 (st : SchedState) (now : Int)
    (hjobs : st.jobs = []) (himm : st.immediates = [])
    (hnodup : ((pendingMessages st).map (fun m => m.id)).Nodup) :
    (initializeScheduler st now).store = st.store ∧
    (initializeScheduler st now).immediates =
      (pendingMessages st).filter (fun m => isDueNow m.scheduledTime now) ∧
    (initializeScheduler st now).jobs =
      ((pendingMessages st).filter
        (fun m => !isDueNow m.scheduledTime now)).map (fun m => (m.id, m)) := by
  unfold initializeScheduler
  rw [foldl_scheduleMessageJob now (pendingMessages st) st
    (fun m _ => by rw [hjobs]; rfl) hnodup]
  refine ⟨rfl, ?_, ?_⟩
  · simp [himm]
  · simp [hjobs]

/-- Witness for claim C7: one overdue and one future pending row plus a
sent row; recovery arms the overdue one immediately and the future one as
a map entry. -/
theorem claim_C7_witness :
    ((pendingMessages
        ⟨[⟨1, 7, "a", [], -100, "none", MsgStatus.pending, 0⟩,
          ⟨2, 8, "b", [], 999999999, "none", MsgStatus.pending, 0⟩,
          ⟨3, 9, "c", [], 50, "none", MsgStatus.sent, 0⟩], [], [], 4⟩).map
      (fun m => m.id)).Nodup ∧
    (initializeScheduler
        ⟨[⟨1, 7, "a", [], -100, "none", MsgStatus.pending, 0⟩,
          ⟨2, 8, "b", [], 999999999, "none", MsgStatus.pending, 0⟩,
          ⟨3, 9, "c", [], 50, "none", MsgStatus.sent, 0⟩], [], [], 4⟩ 0).immediates =
      (pendingMessages
        ⟨[⟨1, 7, "a", [], -100, "none", MsgStatus.pending, 0⟩,
          ⟨2, 8, "b", [], 999999999, "none", MsgStatus.pending, 0⟩,
          ⟨3, 9, "c", [], 50, "none", MsgStatus.sent, 0⟩], [], [], 4⟩).filter
        (fun m => isDueNow m.scheduledTime 0) :=
  ⟨by decide,
   (claim_C7
      ⟨[⟨1, 7, "a", [], -100, "none", MsgStatus.pending, 0⟩,
        ⟨2, 8, "b", [], 999999999, "none", MsgStatus.pending, 0⟩,
        ⟨3, 9, "c", [], 50, "none", MsgStatus.sent, 0⟩], [], [], 4⟩ 0
      rfl rfl (by decide)).2.1⟩

/-- Counterexample to claim C9: the recurring value given as the empty
string lies outside the none/daily/weekly/monthly enumeration, yet the
handler does not normalise it to none — the empty string is falsy, so
the normalisation step is skipped and the row is persisted with an empty
recurring value. -/
theorem claim_C9_counterexample :
    (["none", "daily", "weekly", "monthly"].contains "") = false ∧
    ((handleScheduleRoute ⟨[], [], [], 1⟩
        ⟨some 3, some "hello", some 999999999, none, some ""⟩ 5 5 0).toOption.map
      (fun p => p.2.store.map (fun r => r.recurring))) = some [""] ∧
    ("" : String) ≠ "none" := by
  decide

/-- Claim C9 as amended: an absent contactId or content is rejected with
a validation error before anything is persisted; a missing scheduledTime
defaults to now; a truthy (non-empty) recurring value outside the
enumeration is normalised to none; the empty-string recurring value,
being falsy, skips the normalisation and is stored as is. -/
theorem claim_C9_amended (st : SchedState) (req : ScheduleRequest)
    (numContacts numGroups : Int) (now : Int) :
    (req.contactId = none ∨ req.content = none →
      (handleScheduleRoute st req numContacts numGroups now).toOption = none) ∧
    (∀ m st2, handleScheduleRoute st req numContacts numGroups now =
        Except.ok (m, st2) →
      m.status = MsgStatus.pending ∧
      (req.scheduledTime = none → m.scheduledTime = now) ∧
      (∀ rv, req.recurring = some rv → rv ≠ "" →
        (["none", "daily", "weekly", "monthly"].contains rv) = false →
        m.recurring = "none")) := by
  constructor
  · rintro (hc | hc)
    · unfold handleScheduleRoute
      rw [hc]
      rfl
    · unfold handleScheduleRoute
      rw [hc]
      by_cases h1 : truthyInt req.contactId = true
      · rw [if_neg (by simp [h1])]
        rfl
      · have h1f : truthyInt req.contactId = false := by simpa using h1
        rw [if_pos (by simp [h1f])]
        rfl
  · intro m st2 hok
    unfold handleScheduleRoute at hok
    by_cases h1 : truthyInt req.contactId = true
    · by_cases h2 : truthyStr req.content = true
      · rw [if_neg (by simp [h1]), if_neg (by simp [h2])] at hok
        have hpair := Except.ok.inj hok
        have hm : m = (scheduleMessage st
            { contactId := req.contactId.getD 0
              content := req.content.getD ""
              mediaUrls := req.mediaUrls.getD []
              scheduledTime := req.scheduledTime.getD now
              recurring := (normalizeRecurring req.recurring).getD "none" }
            numContacts numGroups now).1 := by
          rw [hpair]
        rw [hm, scheduleMessage_eq_insertAndArm]
        refine ⟨rfl, ?_, ?_⟩
        · intro hst
          show (req.scheduledTime.getD now) = now
          rw [hst]
          rfl
        · intro rv hrv hne hcont
          show (normalizeRecurring req.recurring).getD "none" = "none"
          rw [hrv]
          show (if rv != "" &&
              !(["none", "daily", "weekly", "monthly"].contains rv)
            then some "none" else some rv).getD "none" = "none"
          rw [if_pos (by
            rw [Bool.and_eq_true]
            exact ⟨by simpa using hne, by rw [hcont]; rfl⟩)]
          rfl
      · have h2f : truthyStr req.content = false := by simpa using h2
        rw [if_neg (by simp [h1]), if_pos (by simp [h2f])] at hok
        exact Except.noConfusion hok
    · have h1f : truthyInt req.contactId = false := by simpa using h1
      rw [if_pos (by simp [h1f])] at hok
      exact Except.noConfusion hok

/-- Witness for the amended claim C9: a request without a contactId is
rejected without persisting anything. -/
theorem claim_C9_amended_witness :
    ((⟨none, some "hello", none, none, none⟩ : ScheduleRequest).contactId =
        none ∨
      (⟨none, some "hello", none, none, none⟩ : ScheduleRequest).content =
        none) ∧
    (handleScheduleRoute ⟨[], [], [], 1⟩
        ⟨none, some "hello", none, none, none⟩ 5 5 0).toOption = none :=
  ⟨Or.inl rfl,
   (claim_C9_amended ⟨[], [], [], 1⟩
      ⟨none, some "hello", none, none, none⟩ 5 5 0).1 (Or.inl rfl)⟩

/-- Witness for claim C2 at a record scheduled 5 seconds in the past. -/
theorem claim_C2_witness :
    (-5000 : Int) ≤ 0 + 4999 ∧
    (scheduleMessageJob { store := [], jobs := [], immediates := [], nextId := 1 }
        ⟨1, 7, "oi", [], -5000, "none", MsgStatus.pending, 0⟩ 0).immediates =
      [] ++ [⟨1, 7, "oi", [], -5000, "none", MsgStatus.pending, 0⟩] :=
  ⟨by decide,
   (claim_C2 { store := [], jobs := [], immediates := [], nextId := 1 }
      ⟨1, 7, "oi", [], -5000, "none", MsgStatus.pending, 0⟩ 0 (by decide)).1⟩

end Sched
